import Mathlib

/-!
Verification of the per-agent orchestration core of a Minecraft MCP server
(mineflayer-based).  The definitions below are shallow embeddings of the
TypeScript source functions: the per-bot single-flight task guard
(`withTask`), the reference-counted auto-eat suspension flag
(`pushSuspendAutoEat` / `popSuspendAutoEat`), the one-shot status reporter
(`getStatus` and the dispatcher `sendToolCall`), the navigation progress
watchdog (`pathfindToPredicate` / `goToKnownLocation`), the crafting
planner (`computeMaxCraftable` / `computeMissingFor`), the smelting device
fallback chain (`smeltItem` / `cookOrSmeltOnDevice`), the auto-shield scan
poller, and the bot-registry resolver (`getBotOrThrow`).
-/

namespace MinecraftMCP

/-! ## Single-flight task guard (`withTask`) -/

/-- Per-bot task mutex state: `__task = { running, abort }`.  The abort
field holds a callback in the source; only its presence matters here. -/
structure TaskState where
  running : Bool
  abortInstalled : Bool
deriving Repr, DecidableEq

/-- Fresh task state installed by `getTask`. -/
def initialTaskState : TaskState := ⟨false, false⟩

/-- The entry check of `withTask`: throw `another_task_running` if busy,
otherwise set `running = true` and install a fresh abort handle. -/
def acquireTask (s : TaskState) : Except String TaskState :=
  if s.running then Except.error "another_task_running"
  else Except.ok ⟨true, true⟩

/-- The `finally` block of `withTask`: reset `running` and clear the
abort handle, on every exit path. -/
def releaseTask (_ : TaskState) : TaskState := ⟨false, false⟩

/-- Outcome of one `withTask` invocation: the returned/thrown value, the
task state after the invocation settles, and whether the guarded body ran. -/
structure TaskRun (α : Type) where
  result : Except String α
  final : TaskState
  ranBody : Bool

/-- `withTask bot fn`: the body settles with outcome `body` (an ordinary
return, a thrown error, or a cancellation surfaced as an error); the
`finally` block always runs afterwards. -/
def withTask {α : Type} (s : TaskState) (body : Except String α) : TaskRun α :=
  match acquireTask s with
  | Except.error e => ⟨Except.error e, s, false⟩
  | Except.ok s1 => ⟨body, releaseTask s1, true⟩

/-- Two overlapping invocations on one bot: the second invocation starts
(and fully settles) while the first one holds the guard; then the first
body settles and its `finally` block releases the guard. -/
def overlappedRun {α : Type} (s : TaskState) (b1 b2 : Except String α) :
    TaskRun α × TaskRun α :=
  match acquireTask s with
  | Except.error e => (⟨Except.error e, s, false⟩, withTask s b2)
  | Except.ok s1 =>
    let r2 := withTask s1 b2
    (⟨b1, releaseTask s1, true⟩, r2)

/-! ## Reference-counted auto-eat suspension flag -/

/-- The pair `__suspendAutoEatCount` / `__suspendAutoEat` attached to a bot. -/
structure SuspendState where
  count : Int
  flag : Bool
deriving Repr, DecidableEq

/-- Fields default to absent, read as `0` / `false`. -/
def initSuspend : SuspendState := ⟨0, false⟩

/-- `pushSuspendAutoEat`: increment the counter, set the derived flag. -/
def pushSuspendAutoEat (s : SuspendState) : SuspendState :=
  ⟨s.count + 1, true⟩

/-- `popSuspendAutoEat`: decrement clamped at zero, flag derived as `n > 0`. -/
def popSuspendAutoEat (s : SuspendState) : SuspendState :=
  let n := max 0 (s.count - 1)
  ⟨n, decide (0 < n)⟩

/-- One increment or decrement call on the suspension counter. -/
inductive SuspendOp
  | push
  | pop
deriving Repr, DecidableEq

def applySuspendOp (s : SuspendState) : SuspendOp → SuspendState
  | SuspendOp.push => pushSuspendAutoEat s
  | SuspendOp.pop => popSuspendAutoEat s

/-- Run an arbitrary (possibly unbalanced, interleaved) sequence of
push/pop calls from the initial state. -/
def runSuspendOps (ops : List SuspendOp) : SuspendState :=
  ops.foldl applySuspendOp initSuspend

/-- Invariant claimed for the suspension counter. -/
def SuspendInv (s : SuspendState) : Prop :=
  0 ≤ s.count ∧ s.flag = decide (0 < s.count)



/-! ## Equip operations and the suspension flag -/

/-- Melee weapon preference list of `equipBestMeleeWeapon`, strongest first. -/
def meleePreference : List String :=
  ["netherite_sword", "diamond_sword", "iron_sword", "stone_sword",
   "golden_sword", "wooden_sword",
   "netherite_axe", "diamond_axe", "iron_axe", "stone_axe",
   "golden_axe", "wooden_axe"]

/-- Result of an equip helper: the item equipped (if any), the suspension
flag value observable by the auto-feed poller while `bot.equip` is in
flight, and the suspension state after the helper returns. -/
structure EquipOutcome where
  equipped : Option String
  flagDuringEquip : Option Bool
  final : SuspendState
deriving Repr, DecidableEq

/-- `equipBestMeleeWeapon`: walk the preference list, equip the first item
present in the inventory.  The source calls `bot.equip(it, hand)` directly,
with no `pushSuspendAutoEat` / `popSuspendAutoEat` around it, so the flag
seen during the equip is whatever it already was. -/
def equipBestMeleeWeapon (inv : List String) (s : SuspendState) : EquipOutcome :=
  match meleePreference.find? (fun n => inv.contains n) with
  | some n => ⟨some n, some s.flag, s⟩
  | none => ⟨none, none, s⟩

/-- The `equipItem` tool: find the item, then
`pushSuspendAutoEat; await bot.equip(...); finally popSuspendAutoEat`. -/
def equipItemTool (inv : List String) (itemName : String) (s : SuspendState) :
    Except String EquipOutcome :=
  if inv.contains itemName then
    let s1 := pushSuspendAutoEat s
    Except.ok ⟨some itemName, some s1.flag, popSuspendAutoEat s1⟩
  else Except.error ("Item not found in inventory")

/-! ## Bot registry (`getBotOrThrow`) -/

/-- First-match association lookup, mirroring `bots.get(username)` on the
insertion-ordered `Map`. -/
def lookupBot {β : Type} (reg : List (String × β)) (u : String) : Option β :=
  (reg.find? (fun p => p.1 = u)).map (fun p => p.2)

/-- `const [first] = bots.values(); if (!first) throw ...` -/
def firstBot {β : Type} (reg : List (String × β)) : Except String β :=
  match reg.head? with
  | some p => Except.ok p.2
  | none => Except.error "No active bots. Use joinGame first."

/-- `getBotOrThrow(username?)`.  The registry is the insertion-ordered
list of connected bots; a `none` or empty username is falsy in the source
and falls through to the first-bot branch. -/
def getBotOrThrow {β : Type} (username : Option String) (reg : List (String × β)) :
    Except String β :=
  match username with
  | some u =>
    if u ≠ "" then
      match lookupBot reg u with
      | some b => Except.ok b
      | none => Except.error ("Bot " ++ u ++ " not found")
    else firstBot reg
  | none => firstBot reg



/-! ## Status reporter (`getStatus`) and tool dispatcher (`sendToolCall`) -/

/-- Per-bot event snapshot store.  The five `__last*` fields are the
one-shot event slots; payloads are opaque here. -/
structure BotState where
  health : Int
  food : Int
  lastDamage : Option String
  lastBroken : Option String
  lastDefense : Option String
  lastDeath : Option String
  lastHungerWarning : Option String
deriving Repr, DecidableEq

/-- The status record returned by `getStatus`. -/
structure Status where
  health : Int
  food : Int
  lastDamage : Option String
  lastBroken : Option String
  lastDefense : Option String
  lastDeath : Option String
  lastHungerWarning : Option String
deriving Repr, DecidableEq

/-- `getStatus(bot)`: read every field, then null all five one-shot slots
before returning (read-and-clear). -/
def getStatus (b : BotState) : Status × BotState :=
  (⟨b.health, b.food, b.lastDamage, b.lastBroken, b.lastDefense,
    b.lastDeath, b.lastHungerWarning⟩,
   { b with lastDamage := none, lastBroken := none, lastDefense := none,
            lastDeath := none, lastHungerWarning := none })

/-- The `delta` block `sendToolCall` attaches to the response. -/
structure Delta where
  healthDelta : Int
  foodDelta : Int
  lastDamage : Option String
deriving Repr, DecidableEq

/-- The status/delta part of a dispatched tool response. -/
structure ToolResponse where
  status : Status
  delta : Delta
deriving Repr, DecidableEq

/-- `sendToolCall`, restricted to the status plumbing for a named,
registered bot: take a pre-action snapshot (`statusBefore = getStatus(b)`,
which clears the slots), run the action, take the post-action snapshot
(`after = getStatus(b)`), and attach `after` plus the computed deltas to
the response. -/
def sendToolCall (b : BotState) (act : BotState → BotState) :
    ToolResponse × BotState :=
  let before := (getStatus b).1
  let b1 := (getStatus b).2
  let b2 := act b1
  let after := (getStatus b2).1
  let b3 := (getStatus b2).2
  (⟨after, ⟨after.health - before.health, after.food - before.food,
            after.lastDamage⟩⟩, b3)

/-- A bot that took one damage event while idle, before any tool call. -/
def damagedIdleBot : BotState :=
  ⟨20, 20, some "attacked_by_zombie", none, none, none, none⟩

/-! ## String classification helpers -/

/-- Substring test on character lists (JS `String.prototype.includes`). -/
def charListContains (sub : List Char) : List Char → Bool
  | [] => sub.isEmpty
  | c :: t => sub.isPrefixOf (c :: t) || charListContains sub t

/-- `s.includes(sub)` on strings. -/
def strContains (s sub : String) : Bool :=
  charListContains sub.toList s.toList

/-- `s.startsWith(sub)`. -/
def strStarts (s sub : String) : Bool :=
  sub.toList.isPrefixOf s.toList

/-- `s.endsWith(sub)`. -/
def strEnds (s sub : String) : Bool :=
  sub.toList.isSuffixOf s.toList

/-- `s.toLowerCase()` (ASCII). -/
def toLowerStr (s : String) : String :=
  String.mk (s.toList.map Char.toLower)

/-! ## Projectile-aware auto-shield poller -/

/-- The fixed poll interval of the `__shieldScan` timer (ms). -/
def shieldScanIntervalMs : Nat := 400

/-- The minimum spacing enforced between consecutive shield raises (ms). -/
def shieldMinSpacingMs : Nat := 600

/-- The fixed trigger radius for nearby projectiles (units). -/
def shieldTriggerRadius : Rat := 6

/-- A world entity as seen by the scan: a (display) name and its distance
to the bot. -/
structure ScanEntity where
  name : String
  distance : Rat
deriving Repr, DecidableEq

/-- Common projectile names across versions, per the scan predicate. -/
def isProjectileName (raw : String) : Bool :=
  let n := toLowerStr raw
  strContains n "arrow" || strContains n "trident" || strContains n "snowball" ||
    strContains n "fireball" || strContains n "projectile"

/-- `near`: some entity is a projectile within the trigger radius. -/
def projectileNear (entities : List ScanEntity) : Bool :=
  entities.any (fun e => isProjectileName e.name && decide (e.distance ≤ shieldTriggerRadius))

/-- Rate-limiter state: `__shieldLastRaised`, absent read as `0`. -/
structure ShieldState where
  lastRaised : Nat
deriving Repr, DecidableEq

/-- One tick of the `__shieldScan` interval callback: skip if disabled,
skip if less than `shieldMinSpacingMs` has passed since the last raise,
otherwise raise the shield when a projectile is near (recording the raise
time).  Returns whether a raise was performed. -/
def shieldTick (enabled : Bool) (now : Nat) (entities : List ScanEntity)
    (s : ShieldState) : Bool × ShieldState :=
  if !enabled then (false, s)
  else if now - s.lastRaised < shieldMinSpacingMs then (false, s)
  else if projectileNear entities then (true, ⟨now⟩)
  else (false, s)

/-! ## Crafting planner (`computeMaxCraftable`, `computeMissingFor`) -/

/-- A shapeless ingredient entry `{ id, count }` (count defaulted to 1). -/
structure Ingredient where
  id : Nat
  count : Nat
deriving Repr, DecidableEq

/-- A recipe as consumed by the planner: an optional shapeless ingredient
list and an optional shaped grid `inShape` of nullable cell ids. -/
structure Recipe where
  ingredients : Option (List Ingredient)
  inShape : Option (List (List (Option Nat)))
deriving Repr, DecidableEq

/-- Inventory as the list of item stacks `(type, count)`. -/
def Inventory : Type := List (Nat × Nat)

/-- `invMap[id]`: total quantity of an item id across stacks. -/
def invCount (inv : Inventory) (id : Nat) : Nat :=
  (List.filter (fun p => p.1 = id) inv).foldl (fun a p => a + p.2) 0

/-- Per-unit requirement for one ingredient id: shapeless entries and
shaped-grid cells merged by id, each occupied cell counting once. -/
def perUnitReq (r : Recipe) (id : Nat) : Nat :=
  (((r.ingredients.getD []).filter (fun i => i.id = id)).map Ingredient.count).sum +
    ((r.inShape.getD []).map (fun row => (row.filter (fun c => c = some id)).length)).sum

/-- The ingredient ids appearing in the recipe (the keys of `reqMap`). -/
def requiredIds (r : Recipe) : List Nat :=
  (((r.ingredients.getD []).map Ingredient.id) ++
    ((r.inShape.getD []).map (fun row => row.filterMap (fun c => c))).flatten).dedup

/-- `computeMaxCraftable(unitsLimit)`: fold `max = min(max, ⌊have/need⌋)`
over the required ids starting from the requested limit, clamp at zero;
the `missing` list is only populated when nothing is craftable. -/
def computeMaxCraftable (inv : Inventory) (r : Recipe) (unitsLimit : Int) :
    Int × List (Nat × Nat) :=
  let m := (requiredIds r).foldl
    (fun acc id => min acc ((invCount inv id / perUnitReq r id : Nat) : Int)) unitsLimit
  let missing :=
    if m ≤ 0 then
      (requiredIds r).filterMap (fun id =>
        if invCount inv id < perUnitReq r id then
          some (id, perUnitReq r id - invCount inv id)
        else none)
    else []
  (max 0 (min m unitsLimit), missing)

/-- `computeMissingFor(units)`: requirement for `units` crafts versus the
inventory; one entry per short ingredient with the shortfall count. -/
def computeMissingFor (inv : Inventory) (r : Recipe) (units : Nat) :
    List (Nat × Nat) :=
  (requiredIds r).filterMap (fun id =>
    if invCount inv id < perUnitReq r id * units then
      some (id, perUnitReq r id * units - invCount inv id)
    else none)

/-- The result record assembled at the end of `craftItems`. -/
structure CraftResult where
  ok : Bool
  requested : Nat
  crafted : Nat
  remaining : Nat
  missingItems : List (Nat × Nat)
deriving Repr, DecidableEq

/-- The tail of `craftItems`: `ok = crafted > 0`,
`remaining = max(0, count - crafted)`, and `missingItems` computed for
`max(1, count - crafted)` units whenever fewer than `count` were crafted. -/
def craftItemsResult (inv : Inventory) (r : Recipe) (count crafted : Nat) :
    CraftResult :=
  ⟨decide (0 < crafted), count, crafted, count - crafted,
   if crafted < count then computeMissingFor inv r (max 1 (count - crafted)) else []⟩

/-- A one-ingredient recipe: one unit of item id 1 per craft. -/
def recipeOneOfA : Recipe := ⟨some [⟨1, 1⟩], none⟩

/-! ## Smelting/cooking device fallback chain -/

/-- The furnace-like (plus campfire) devices. -/
inductive Device
  | furnace
  | smoker
  | blast_furnace
  | campfire
deriving Repr, DecidableEq

/-- The food name fragments recognised by `isLikelyFood`. -/
def foodNames : List String :=
  ["beef", "porkchop", "mutton", "chicken", "cod", "salmon", "rabbit",
   "potato", "kelp", "sweet_berries"]

/-- `isLikelyFood(itemName)`. -/
def isLikelyFood (itemName : String) : Bool :=
  let n := toLowerStr itemName
  foodNames.any (fun x => strContains n x) ||
    strStarts n "raw_" || strContains n "raw"

/-- `isLikelyOre(itemName)`. -/
def isLikelyOre (itemName : String) : Bool :=
  let n := toLowerStr itemName
  strEnds n "_ore" || strStarts n "raw_" ||
    ["iron_ore", "gold_ore", "copper_ore", "ancient_debris"].any
      (fun x => strContains n x)

/-- `chooseDeviceForItem(itemName, prefer?)`: explicit preference wins,
otherwise food goes to the smoker, ore-like to the blast furnace, and
everything else to the plain furnace. -/
def chooseDeviceForItem (itemName : String) (prefer : Option String) : Device :=
  let p := toLowerStr (prefer.getD "")
  if p = "furnace" then Device.furnace
  else if p = "smoker" then Device.smoker
  else if p = "blast_furnace" then Device.blast_furnace
  else if p = "campfire" then Device.campfire
  else if isLikelyFood itemName then Device.smoker
  else if isLikelyOre itemName then Device.blast_furnace
  else Device.furnace

/-- The device named by an explicit `preferDevice` string in `smeltItem`
(anything unrecognised falls back to the plain furnace). -/
def preferredDevice (pd : String) : Device :=
  if pd = "campfire" then Device.campfire
  else if pd = "smoker" then Device.smoker
  else if pd = "blast_furnace" then Device.blast_furnace
  else Device.furnace

/-- The attempted-device sequence built at the top of `smeltItem`:
the explicit preference first (with furnace appended as a fallback, and
campfire appended for food), otherwise smoker/furnace/campfire for food,
blast furnace/furnace for ore, and just the furnace otherwise. -/
def deviceSequence (itemName : String) (preferDevice : Option String) :
    List Device :=
  let isFoodItem := isLikelyFood itemName
  let isOreItem := isLikelyOre itemName
  match preferDevice with
  | some pd =>
    let s1 := [preferredDevice pd]
    let s2 := if s1.contains Device.furnace then s1 else s1 ++ [Device.furnace]
    if isFoodItem && !(s2.contains Device.campfire) then s2 ++ [Device.campfire]
    else s2
  | none =>
    if isFoodItem then [Device.smoker, Device.furnace, Device.campfire]
    else if isOreItem then [Device.blast_furnace, Device.furnace]
    else [Device.furnace]

/-- Final shape of a `smeltItem` result as far as the chain is concerned:
overall success, the device the returned result came from, and the full
`attemptedDevices` list. -/
structure SmeltOutcome where
  ok : Bool
  deviceUsed : Option Device
  attemptedDevices : List Device
deriving Repr, DecidableEq

/-- The `for (const dev of sequence)` loop of `smeltItem`: each device is
pushed onto `attempts` before it is tried; `attempt d = .ok true` models a
device run that yielded output (`r.ok`), `.ok false` a run that failed,
and `.error` a thrown error — both failure kinds advance the chain.  When
no device succeeds the result is `ok: false` with every device recorded. -/
def runDeviceChain (attempt : Device → Except String Bool) :
    List Device → List Device → SmeltOutcome
  | [], attempts => ⟨false, none, attempts⟩
  | d :: rest, attempts =>
    match attempt d with
    | Except.ok true => ⟨true, some d, attempts ++ [d]⟩
    | Except.ok false => runDeviceChain attempt rest (attempts ++ [d])
    | Except.error _ => runDeviceChain attempt rest (attempts ++ [d])

/-- `smeltItem` (and its alias `cookItem`), reduced to device selection. -/
def smeltItemChain (itemName : String) (preferDevice : Option String)
    (attempt : Device → Except String Bool) : SmeltOutcome :=
  runDeviceChain attempt (deviceSequence itemName preferDevice) []

/-! ## Furnace output polling with refuel retry (`cookOrSmeltOnDevice`) -/

/-- Result of the output-collection phase of `cookOrSmeltOnDevice`. -/
structure CookPollResult where
  ok : Bool
  outputs : Nat
  timedOut : Bool
  stalled : Bool
  outOfFuel : Bool
  reason : Option String
  refuels : Nat
deriving Repr, DecidableEq

/-- The code after the polling loop: `timedOut`, `stalled` and `reason`
derived from the collected outputs, the deadline and the out-of-fuel flag. -/
def cookExit (outputs target now deadline : Nat) (outOfFuel : Bool)
    (refuels : Nat) : CookPollResult :=
  let timedOut := decide (outputs < target) && decide (deadline ≤ now)
  let stalled := decide (outputs < target) && !timedOut && !outOfFuel
  let reason :=
    if outOfFuel then some "out_of_fuel"
    else if timedOut then some "timed_out"
    else if stalled then some "stalled"
    else none
  ⟨decide (target ≤ outputs), outputs, timedOut, stalled, outOfFuel, reason, refuels⟩

/-- The `while (outputs < outputsTarget && Date.now() < deadline)` polling
loop.  Oracles describe the environment at poll `k`: the clock, the output
taken (absent models both no output and a thrown `takeOutput`), whether
the device still has fuel, whether the inventory holds a usable fuel item,
and whether `putFuel` succeeds.  On a stall (no output progress for 15 s):
with fuel still present the loop breaks plainly; with the fuel slot empty
it refuels and continues while fewer than two refuels have been consumed
and a fuel item is available and insertable, and otherwise breaks with
`outOfFuel = true`.  `none` means the iteration fuel ran out. -/
def cookPollLoop (time : Nat → Nat) (takeOut : Nat → Option Nat)
    (fuelPresent invFuel refuelOk : Nat → Bool) (target deadline : Nat) :
    Nat → Nat → Nat → Nat → Nat → Option CookPollResult
  | 0, _, _, _, _ => none
  | fuel + 1, k, outputs, lpa, ra =>
    let now := time k
    if outputs < target ∧ now < deadline then
      let outputs' := outputs + (takeOut k).getD 0
      let lpa' := if (takeOut k).isSome then now else lpa
      if 15000 < now - lpa' then
        if fuelPresent k then
          some (cookExit outputs' target now deadline false ra)
        else if invFuel k && decide (ra < 2) && refuelOk k then
          cookPollLoop time takeOut fuelPresent invFuel refuelOk target deadline
            fuel (k + 1) outputs' now (ra + 1)
        else
          some (cookExit outputs' target now deadline true ra)
      else
        cookPollLoop time takeOut fuelPresent invFuel refuelOk target deadline
          fuel (k + 1) outputs' lpa' ra
    else
      some (cookExit outputs target now deadline false ra)

/-! ## Navigation progress watchdog -/

/-- Terminal outcomes of the `pathfindToPredicate` watchdog loop:
reaching the goal, `navigation_stalled`, or `navigation_timeout`. -/
inductive NavOutcome
  | arrived
  | stalled
  | timedOut
deriving Repr, DecidableEq

/-- `dist + 0.25 < best`, with `best` initialised to `Infinity` (`none`). -/
def navImproves (best : Option Rat) (d : Rat) : Bool :=
  match best with
  | none => true
  | some b => decide (d + 1/4 < b)

/-- The per-iteration update of `best` / `lastProgressAt`: both are reset
exactly when the metric improves by more than 0.25 relative to `best`. -/
def navUpdate (best : Option Rat) (d : Rat) (now lpa : Nat) :
    Option Rat × Nat :=
  if navImproves best d then (some d, now) else (best, lpa)

/-- The watchdog loop shared by `pathfindToPredicate` (throwing variant):
at iteration `k` (clock `time k`, metric `dist k`) exit with
`navigation_timeout` once the deadline has elapsed, with arrival once the
metric is within `arriveDist`, and with `navigation_stalled` once more
than `idleMs` has passed since the last improvement; `none` means the
iteration fuel ran out. -/
def navLoop (dist : Nat → Rat) (time : Nat → Nat)
    (start timeoutMs idleMs : Nat) (arriveDist : Rat) :
    Nat → Nat → Option Rat → Nat → Option NavOutcome
  | 0, _, _, _ => none
  | fuel + 1, k, best, lpa =>
    if timeoutMs ≤ time k - start then some NavOutcome.timedOut
    else if dist k ≤ arriveDist then some NavOutcome.arrived
    else if idleMs < time k - (navUpdate best (dist k) (time k) lpa).2 then
      some NavOutcome.stalled
    else
      navLoop dist time start timeoutMs idleMs arriveDist fuel (k + 1)
        (navUpdate best (dist k) (time k) lpa).1
        (navUpdate best (dist k) (time k) lpa).2

/-- Arrival threshold `Math.max(1, range) + 0.5`. -/
def arriveThreshold (range : Rat) : Rat := max 1 range + 1/2

/-- The `pathfindToPredicate` watchdog: 15 s idle window,
`best = Infinity`, `lastProgressAt = start`, starting at the first poll. -/
def pathfindWatchdog (dist : Nat → Rat) (time : Nat → Nat) (range : Rat)
    (timeoutMs fuel : Nat) : Option NavOutcome :=
  navLoop dist time (time 0) timeoutMs 15000 (arriveThreshold range) fuel 0 none (time 0)

/-- The result record of `goToKnownLocation`:
`{ ok: arrived, arrived, timedOut: !arrived }`. -/
structure GoToResult where
  ok : Bool
  arrived : Bool
  timedOut : Bool
deriving Repr, DecidableEq

/-- The watchdog loop of `goToKnownLocation` (non-throwing variant): same
improvement rule and 15 s idle window, but a stall merely breaks the loop,
and the returned `arrived` flag is all the caller learns.  Returns the
final `arrived` flag; `none` means the iteration fuel ran out. -/
def goToLoop (dist : Nat → Rat) (time : Nat → Nat) (start maxMs : Nat)
    (arriveDist : Rat) : Nat → Nat → Option Rat → Nat → Option Bool
  | 0, _, _, _ => none
  | fuel + 1, k, best, lpa =>
    if maxMs ≤ time k - start then some false
    else if dist k ≤ arriveDist then some true
    else if 15000 < time k - (navUpdate best (dist k) (time k) lpa).2 then some false
    else
      goToLoop dist time start maxMs arriveDist fuel (k + 1)
        (navUpdate best (dist k) (time k) lpa).1
        (navUpdate best (dist k) (time k) lpa).2

/-- `goToKnownLocation`, reduced to its watchdog loop and result record. -/
def goToKnownLocationRun (dist : Nat → Rat) (time : Nat → Nat) (range : Rat)
    (maxMs fuel : Nat) : Option GoToResult :=
  (goToLoop dist time (time 0) maxMs (arriveThreshold range) fuel 0 none (time 0)).map
    (fun a => ⟨a, a, !a⟩)

/-! ## Theorems -/

theorem suspendInv_apply (s : SuspendState) (op : SuspendOp) (h : SuspendInv s) :
    SuspendInv (applySuspendOp s op) := by
  obtain ⟨h0, _⟩ := h
  cases op with
  | push =>
    refine ⟨by simp [applySuspendOp, pushSuspendAutoEat]; omega, ?_⟩
    simp only [applySuspendOp, pushSuspendAutoEat]
    have : (0 : Int) < s.count + 1 := by omega
    simp [this]
  | pop =>
    refine ⟨le_max_left _ _, rfl⟩
theorem suspendInv_foldl (ops : List SuspendOp) :
    ∀ s : SuspendState, SuspendInv s → SuspendInv (ops.foldl applySuspendOp s) := by
  induction ops with
  | nil => intro s h; exact h
  | cons op rest ih =>
    intro s h
    exact ih (applySuspendOp s op) (suspendInv_apply s op h)
theorem lookupBot_of_mem {β : Type} (reg : List (String × β)) (u : String) (b : β)
    (hmem : (u, b) ∈ reg) (hnodup : (reg.map Prod.fst).Nodup) :
    lookupBot reg u = some b := by
  induction reg with
  | nil => cases hmem
  | cons p rest ih =>
    simp only [List.map_cons, List.nodup_cons] at hnodup
    rcases List.mem_cons.mp hmem with h | h
    · subst h
      simp [lookupBot, List.find?]
    · by_cases hu : p.1 = u
      · exfalso
        apply hnodup.1
        rw [hu]
        exact List.mem_map.mpr ⟨(u, b), h, rfl⟩
      · have := ih h hnodup.2
        simpa [lookupBot, List.find?, hu] using this
theorem lookupBot_of_not_mem {β : Type} (reg : List (String × β)) (u : String)
    (habs : u ∉ reg.map Prod.fst) : lookupBot reg u = none := by
  induction reg with
  | nil => rfl
  | cons p rest ih =>
    simp only [List.map_cons, List.mem_cons] at habs
    push_neg at habs
    have hne : p.1 ≠ u := fun h => habs.1 h.symm
    have := ih habs.2
    simpa [lookupBot, List.find?, hne] using this

/-- Claim C1: for every session, `withTask` fails immediately with the
`another_task_running` error when `running` is already true and leaves the
state untouched; otherwise it sets `running = true`, installs a fresh
abort handle, and on every exit path of the body (normal return or thrown
error/cancellation, both covered by the body outcome) resets `running` to
false and clears the handle; in the overlapped two-invocation scenario
exactly one body runs, the other invocation errors, and `running` is false
after both complete. -/
theorem withTask_single_flight {α : Type} (s : TaskState) (b1 b2 : Except String α)
    (h : s.running = false) :
    (∀ s' : TaskState, s'.running = true →
      withTask s' b1 = ⟨Except.error "another_task_running", s', false⟩) ∧
    acquireTask s = Except.ok ⟨true, true⟩ ∧
    withTask s b1 = ⟨b1, ⟨false, false⟩, true⟩ ∧
    ((overlappedRun s b1 b2).1.ranBody = true ∧
     (overlappedRun s b1 b2).2.ranBody = false ∧
     (overlappedRun s b1 b2).2.result = Except.error "another_task_running" ∧
     (overlappedRun s b1 b2).1.final.running = false ∧
     (overlappedRun s b1 b2).1.final.abortInstalled = false) := by
  refine ⟨?_, ?_, ?_, ?_⟩
  · intro s' hs'
    simp [withTask, acquireTask, hs']
  · simp [acquireTask, h]
  · simp [withTask, acquireTask, releaseTask, h]
  · simp [overlappedRun, withTask, acquireTask, releaseTask, h]

theorem withTask_single_flight_witness :
    initialTaskState.running = false ∧
    withTask initialTaskState (Except.ok 1) = ⟨Except.ok 1, ⟨false, false⟩, true⟩ ∧
    (overlappedRun initialTaskState (Except.ok 1) (Except.ok 2)).2.result
      = Except.error "another_task_running" :=
  ⟨rfl,
   (withTask_single_flight initialTaskState (Except.ok 1) (Except.ok 2) rfl).2.2.1,
   (withTask_single_flight initialTaskState (Except.ok 1) (Except.ok 2) rfl).2.2.2.2.2.1⟩

/-- Claim C2 counterexample: a one-shot damage event pending before a tool
call is consumed by the dispatcher's pre-action snapshot and surfaced to
no caller — the post-action status attached to the response carries
`none`, the slot is cleared, and a later call surfaces nothing either; so
not every one-shot event is surfaced to exactly one caller. -/
theorem pre_call_event_surfaced_to_no_caller :
    damagedIdleBot.lastDamage = some "attacked_by_zombie" ∧
    (sendToolCall damagedIdleBot id).1.status.lastDamage = none ∧
    (sendToolCall damagedIdleBot id).2.lastDamage = none ∧
    (sendToolCall (sendToolCall damagedIdleBot id).2 id).1.status.lastDamage = none :=
  ⟨rfl, rfl, rfl, rfl⟩

/-- Claim C2 (amended): every `getStatus` call returns the current values
of the one-shot slots and nulls all of them before returning, so two
consecutive reads after one event yield the event then `none`; the
dispatcher attaches the post-action snapshot to the response and leaves
every slot cleared, so each one-shot event is surfaced to at most one
caller (an event pending before the dispatch is consumed unreported by
the pre-action snapshot). -/
theorem status_read_and_clear (b : BotState) (act : BotState → BotState) :
    (getStatus b).1.lastDamage = b.lastDamage ∧
    (getStatus b).1.lastBroken = b.lastBroken ∧
    (getStatus b).1.lastDefense = b.lastDefense ∧
    (getStatus b).1.lastDeath = b.lastDeath ∧
    (getStatus b).1.lastHungerWarning = b.lastHungerWarning ∧
    (getStatus (getStatus b).2).1.lastDamage = none ∧
    (getStatus (getStatus b).2).1.lastBroken = none ∧
    (getStatus (getStatus b).2).1.lastDefense = none ∧
    (getStatus (getStatus b).2).1.lastDeath = none ∧
    (getStatus (getStatus b).2).1.lastHungerWarning = none ∧
    (sendToolCall b act).1.status = (getStatus (act (getStatus b).2)).1 ∧
    (sendToolCall b act).2.lastDamage = none ∧
    (sendToolCall b act).2.lastBroken = none ∧
    (sendToolCall b act).2.lastDefense = none ∧
    (sendToolCall b act).2.lastDeath = none ∧
    (sendToolCall b act).2.lastHungerWarning = none ∧
    (sendToolCall (sendToolCall b act).2 id).1.status.lastDamage = none :=
  ⟨rfl, rfl, rfl, rfl, rfl, rfl, rfl, rfl, rfl, rfl, rfl, rfl, rfl, rfl, rfl, rfl, rfl⟩

/-- Claim C3 (the code contradicts it): `equipBestMeleeWeapon` calls
`bot.equip` with no suspension push/pop around it, so with the counter at
zero the auto-feed poller observes `suspended = false` during the swap;
the `equipItem` tool, by contrast, pushes before equipping so `true` is
observed there. -/
theorem equipBestMeleeWeapon_skips_suspension :
    (equipBestMeleeWeapon ["iron_sword"] initSuspend).equipped = some "iron_sword" ∧
    (equipBestMeleeWeapon ["iron_sword"] initSuspend).flagDuringEquip = some false ∧
    (equipBestMeleeWeapon ["iron_sword"] initSuspend).final = initSuspend ∧
    (equipItemTool ["iron_sword"] "iron_sword" initSuspend).toOption.map
      EquipOutcome.flagDuringEquip = some (some true) := by
  refine ⟨?_, ?_, ?_, ?_⟩ <;> rfl

/-- Claim C4: for every sequence of `pushSuspendAutoEat` /
`popSuspendAutoEat` calls, including unbalanced or interleaved ones, the
counter is never negative and after each call the derived flag equals
`count > 0`. -/
theorem suspend_count_never_negative (ops : List SuspendOp) :
    0 ≤ (runSuspendOps ops).count ∧
    (runSuspendOps ops).flag = decide (0 < (runSuspendOps ops).count) :=
  suspendInv_foldl ops initSuspend ⟨le_refl 0, by decide⟩

/-- Claim C9: the auto-shield poller runs on a fixed 400 ms timer looking
for projectile entities within 6 units, and a raise records its time so
that a second qualifying trigger less than 600 ms later is skipped — two
qualifying triggers under 600 ms apart perform exactly one raise; once
600 ms have passed a qualifying trigger raises again. -/
theorem auto_shield_rate_limit (s : ShieldState) (t1 t2 : Nat)
    (e1 e2 : List ScanEntity)
    (hraise : (shieldTick true t1 e1 s).1 = true)
    (hlt : t2 - t1 < 600) :
    shieldScanIntervalMs = 400 ∧
    shieldTriggerRadius = 6 ∧
    (shieldTick true t1 e1 s).2 = ⟨t1⟩ ∧
    (shieldTick true t2 e2 (shieldTick true t1 e1 s).2).1 = false ∧
    (∀ s' : ShieldState, 600 ≤ t2 - s'.lastRaised → projectileNear e2 = true →
      (shieldTick true t2 e2 s').1 = true) := by
  have hstate : (shieldTick true t1 e1 s).2 = ⟨t1⟩ := by
    by_cases hrate : t1 - s.lastRaised < shieldMinSpacingMs
    · exfalso
      simp [shieldTick, hrate] at hraise
    · by_cases hnear : projectileNear e1 = true
      · simp [shieldTick, hrate, hnear]
      · exfalso
        simp [shieldTick, hrate, hnear] at hraise
  refine ⟨rfl, rfl, hstate, ?_, ?_⟩
  · rw [hstate]
    have : t2 - t1 < shieldMinSpacingMs := hlt
    simp [shieldTick, this]
  · intro s' hgap hnear
    have : ¬ t2 - s'.lastRaised < shieldMinSpacingMs := by
      simp only [shieldMinSpacingMs]
      omega
    simp [shieldTick, this, hnear]

theorem auto_shield_rate_limit_witness :
    (shieldTick true 1000 [⟨"arrow", 3⟩] ⟨0⟩).1 = true ∧
    (1400 : Nat) - 1000 < 600 ∧
    (shieldTick true 1400 [⟨"arrow", 3⟩] (shieldTick true 1000 [⟨"arrow", 3⟩] ⟨0⟩).2).1
      = false :=
  ⟨by decide, by decide,
   (auto_shield_rate_limit ⟨0⟩ 1000 1400 [⟨"arrow", 3⟩] [⟨"arrow", 3⟩]
     (by decide) (by decide)).2.2.2.1⟩

/-- Claim C10: `getBotOrThrow` with a nonempty username returns exactly
the registered bot of that name or fails with a not-found error; with the
username omitted or empty it returns the first bot in registry insertion
order, failing only when the registry is empty. -/
theorem getBotOrThrow_resolution {β : Type} (reg : List (String × β)) (u : String)
    (b : β) (p : String × β) (rest : List (String × β))
    (hnodup : (reg.map Prod.fst).Nodup) :
    (u ≠ "" → (u, b) ∈ reg → getBotOrThrow (some u) reg = Except.ok b) ∧
    (u ≠ "" → u ∉ reg.map Prod.fst →
      getBotOrThrow (some u) reg = Except.error ("Bot " ++ u ++ " not found")) ∧
    getBotOrThrow none (p :: rest) = Except.ok p.2 ∧
    getBotOrThrow (some "") (p :: rest) = Except.ok p.2 ∧
    getBotOrThrow (β := β) none [] = Except.error "No active bots. Use joinGame first." ∧
    getBotOrThrow (β := β) (some "") []
      = Except.error "No active bots. Use joinGame first." := by
  refine ⟨?_, ?_, rfl, rfl, rfl, rfl⟩
  · intro hne hmem
    simp [getBotOrThrow, hne, lookupBot_of_mem reg u b hmem hnodup]
  · intro hne habs
    simp [getBotOrThrow, hne, lookupBot_of_not_mem reg u habs]

theorem getBotOrThrow_resolution_witness :
    getBotOrThrow (some "bob") [("alice", 1), ("bob", 2)] = Except.ok 2 ∧
    getBotOrThrow none [("alice", 1), ("bob", 2)] = Except.ok 1 ∧
    getBotOrThrow (some "carol") [("alice", 1), ("bob", 2)]
      = Except.error "Bot carol not found" := by
  have h := getBotOrThrow_resolution [("alice", 1), ("bob", 2)] "carol" 2
    ("alice", 1) [("bob", 2)] (by decide)
  have h2 := getBotOrThrow_resolution [("alice", 1), ("bob", 2)] "bob" 2
    ("alice", 1) [("bob", 2)] (by decide)
  exact ⟨h2.1 (by decide) (by decide), h.2.2.1,
    h.2.1 (by decide) (by decide)⟩

/-! ### Crafting planner lemmas -/

theorem foldl_min_eq_init_or_mem (l : List Int) :
    ∀ init : Int, l.foldl min init = init ∨ l.foldl min init ∈ l := by
  induction l with
  | nil => intro init; exact Or.inl rfl
  | cons x t ih =>
    intro init
    rcases ih (min init x) with h | h
    · rcases min_choice init x with hm | hm
      · exact Or.inl (by simpa [List.foldl_cons, hm] using h)
      · refine Or.inr (List.mem_cons.mpr (Or.inl ?_))
        simpa [List.foldl_cons, hm] using h
    · exact Or.inr (List.mem_cons.mpr (Or.inr (by simpa [List.foldl_cons] using h)))

theorem foldl_min_le_init (l : List Int) : ∀ init : Int, l.foldl min init ≤ init := by
  induction l with
  | nil => intro init; exact le_refl init
  | cons x t ih =>
    intro init
    exact le_trans (ih (min init x)) (min_le_left _ _)

theorem foldl_min_le_mem (l : List Int) :
    ∀ init x : Int, x ∈ l → l.foldl min init ≤ x := by
  induction l with
  | nil => intro _ x hx; cases hx
  | cons y t ih =>
    intro init x hx
    rcases List.mem_cons.mp hx with rfl | hx
    · exact le_trans (foldl_min_le_init t (min init x)) (min_le_right _ _)
    · exact ih (min init y) x hx

/-- The fold in `computeMaxCraftable`, as a fold of `min` over the floors. -/
theorem computeMaxCraftable_fold (inv : Inventory) (r : Recipe) (limit : Int) :
    (computeMaxCraftable inv r limit).1 =
      max 0 (min (((requiredIds r).map
        (fun id => ((invCount inv id / perUnitReq r id : Nat) : Int))).foldl min limit) limit) := by
  simp [computeMaxCraftable, List.foldl_map]

/-- Claim C6: the per-unit requirement merges shapeless entries and shaped
cells by id; the immediately craftable unit count is nonnegative, capped
at the requested count, bounded by every per-ingredient floor
`⌊available / perUnit⌋`, and attained (it is the limit or one of the
floors); `computeMissingFor` holds exactly one entry per short ingredient
carrying the shortfall count, and `craftItems` reports `ok = crafted > 0`
with that missing list whenever fewer than the requested units were
crafted. -/
theorem craft_planner_max_and_missing (inv : Inventory) (r : Recipe) (limit : Int)
    (count crafted : Nat) :
    0 ≤ (computeMaxCraftable inv r limit).1 ∧
    (computeMaxCraftable inv r limit).1 ≤ max limit 0 ∧
    (∀ id ∈ requiredIds r,
      (computeMaxCraftable inv r limit).1
        ≤ ((invCount inv id / perUnitReq r id : Nat) : Int)) ∧
    (0 ≤ limit →
      (computeMaxCraftable inv r limit).1 = limit ∨
      ∃ id ∈ requiredIds r,
        (computeMaxCraftable inv r limit).1
          = ((invCount inv id / perUnitReq r id : Nat) : Int)) ∧
    (∀ id k units, ((id, k) ∈ computeMissingFor inv r units ↔
      id ∈ requiredIds r ∧ invCount inv id < perUnitReq r id * units ∧
        k = perUnitReq r id * units - invCount inv id)) ∧
    (craftItemsResult inv r count crafted).ok = decide (0 < crafted) ∧
    (crafted < count →
      (craftItemsResult inv r count crafted).missingItems
        = computeMissingFor inv r (max 1 (count - crafted))) := by
  set floors := (requiredIds r).map
    (fun id => ((invCount inv id / perUnitReq r id : Nat) : Int)) with hfloors
  have hfold := computeMaxCraftable_fold inv r limit
  rw [← hfloors] at hfold
  refine ⟨?_, ?_, ?_, ?_, ?_, rfl, ?_⟩
  · rw [hfold]; exact le_max_left _ _
  · rw [hfold, max_comm limit 0]
    exact max_le_max (le_refl 0) (min_le_right _ _)
  · intro id hid
    have hmem : ((invCount inv id / perUnitReq r id : Nat) : Int) ∈ floors :=
      List.mem_map.mpr ⟨id, hid, rfl⟩
    have hle : floors.foldl min limit ≤ ((invCount inv id / perUnitReq r id : Nat) : Int) :=
      foldl_min_le_mem floors limit _ hmem
    rw [hfold]
    have h0 : (0 : Int) ≤ ((invCount inv id / perUnitReq r id : Nat) : Int) :=
      Int.ofNat_nonneg _
    exact max_le h0 (le_trans (min_le_left _ _) hle)
  · intro hlim
    have hnn : 0 ≤ floors.foldl min limit := by
      rcases foldl_min_eq_init_or_mem floors limit with h | h
      · rw [h]; exact hlim
      · rcases List.mem_map.mp h with ⟨id, _, heq2⟩
        rw [← heq2]; exact Int.ofNat_nonneg _
    have hle : floors.foldl min limit ≤ limit := foldl_min_le_init floors limit
    have hc : (computeMaxCraftable inv r limit).1 = floors.foldl min limit := by
      rw [hfold, min_eq_left hle, max_eq_right hnn]
    rcases foldl_min_eq_init_or_mem floors limit with h | h
    · exact Or.inl (by rw [hc, h])
    · rcases List.mem_map.mp h with ⟨id, hid, heq⟩
      exact Or.inr ⟨id, hid, by rw [hc, ← heq]⟩
  · intro id k units
    constructor
    · intro hmem
      rcases List.mem_filterMap.mp hmem with ⟨a, ha, hf⟩
      by_cases hcond : invCount inv a < perUnitReq r a * units
      · simp only [hcond, if_true, Option.some.injEq, Prod.mk.injEq] at hf
        obtain ⟨rfl, rfl⟩ := hf
        exact ⟨ha, hcond, rfl⟩
      · simp [hcond] at hf
    · rintro ⟨hid, hcond, rfl⟩
      exact List.mem_filterMap.mpr ⟨id, hid, by simp [hcond]⟩
  · intro hlt
    simp [craftItemsResult, hlt]

theorem craft_planner_max_and_missing_witness :
    (computeMaxCraftable [(1, 3)] recipeOneOfA 5).1 ≤ max 5 0 ∧
    ((computeMaxCraftable [(1, 3)] recipeOneOfA 5).1 = 5 ∨
      ∃ id ∈ requiredIds recipeOneOfA,
        (computeMaxCraftable [(1, 3)] recipeOneOfA 5).1
          = ((invCount [(1, 3)] id / perUnitReq recipeOneOfA id : Nat) : Int)) ∧
    (computeMaxCraftable [(1, 3)] recipeOneOfA 5).1 = 3 ∧
    ((1, 2) ∈ computeMissingFor [(1, 0)] recipeOneOfA 2 ↔
      1 ∈ requiredIds recipeOneOfA ∧
        invCount [(1, 0)] 1 < perUnitReq recipeOneOfA 1 * 2 ∧
        2 = perUnitReq recipeOneOfA 1 * 2 - invCount [(1, 0)] 1) ∧
    (craftItemsResult [(1, 0)] recipeOneOfA 5 3).missingItems
      = computeMissingFor [(1, 0)] recipeOneOfA (max 1 (5 - 3)) := by
  have h := craft_planner_max_and_missing [(1, 3)] recipeOneOfA 5 5 3
  have h2 := craft_planner_max_and_missing [(1, 0)] recipeOneOfA 5 5 3
  exact ⟨h.2.1, h.2.2.2.1 (by decide), by decide,
    h2.2.2.2.2.1 1 2 2, h2.2.2.2.2.2.2 (by decide)⟩

/-! ### Device fallback chain lemmas -/

theorem runDeviceChain_all_fail (attempt : Device → Except String Bool) :
    ∀ (ds init : List Device), (∀ d ∈ ds, attempt d ≠ Except.ok true) →
      runDeviceChain attempt ds init = ⟨false, none, init ++ ds⟩ := by
  intro ds
  induction ds with
  | nil => intro init _; simp [runDeviceChain]
  | cons d rest ih =>
    intro init h
    have hd := h d (List.mem_cons_self _ _)
    cases hatt : attempt d with
    | ok b =>
      cases b with
      | true => exact absurd hatt hd
      | false =>
        have := ih (init ++ [d]) (fun d' hd' => h d' (List.mem_cons_of_mem _ hd'))
        simpa [runDeviceChain, hatt] using this
    | error e =>
      have := ih (init ++ [d]) (fun d' hd' => h d' (List.mem_cons_of_mem _ hd'))
      simpa [runDeviceChain, hatt] using this

theorem runDeviceChain_first_success (attempt : Device → Except String Bool)
    (d : Device) (post : List Device) (hd : attempt d = Except.ok true) :
    ∀ (pre init : List Device), (∀ d' ∈ pre, attempt d' ≠ Except.ok true) →
      runDeviceChain attempt (pre ++ d :: post) init
        = ⟨true, some d, init ++ pre ++ [d]⟩ := by
  intro pre
  induction pre with
  | nil => intro init _; simp [runDeviceChain, hd]
  | cons p rest ih =>
    intro init h
    have hp := h p (List.mem_cons_self _ _)
    cases hatt : attempt p with
    | ok b =>
      cases b with
      | true => exact absurd hatt hp
      | false =>
        have := ih (init ++ [p]) (fun d' hd' => h d' (List.mem_cons_of_mem _ hd'))
        simpa [runDeviceChain, hatt, List.append_assoc] using this
    | error e =>
      have := ih (init ++ [p]) (fun d' hd' => h d' (List.mem_cons_of_mem _ hd'))
      simpa [runDeviceChain, hatt, List.append_assoc] using this

/-- Claim C7: `smeltItem` tries the explicit preference first when given;
otherwise smoker→furnace→campfire for food, blast-furnace→furnace for
ore, plain furnace otherwise; it returns the result of the first device
yielding output together with the full attempted-device list, and when
every device fails (returns no output or throws) the result is
`ok = false` with all attempted devices recorded. -/
theorem smelt_device_fallback_chain :
    (∀ n, isLikelyFood n = true →
      deviceSequence n none = [Device.smoker, Device.furnace, Device.campfire]) ∧
    (∀ n, isLikelyFood n = false → isLikelyOre n = true →
      deviceSequence n none = [Device.blast_furnace, Device.furnace]) ∧
    (∀ n, isLikelyFood n = false → isLikelyOre n = false →
      deviceSequence n none = [Device.furnace]) ∧
    (∀ n pd, (deviceSequence n (some pd)).head? = some (preferredDevice pd)) ∧
    (∀ n pref attempt, (∀ d ∈ deviceSequence n pref, attempt d ≠ Except.ok true) →
      smeltItemChain n pref attempt = ⟨false, none, deviceSequence n pref⟩) ∧
    (∀ n pref attempt pre d post, deviceSequence n pref = pre ++ d :: post →
      (∀ d' ∈ pre, attempt d' ≠ Except.ok true) → attempt d = Except.ok true →
      smeltItemChain n pref attempt = ⟨true, some d, pre ++ [d]⟩) := by
  refine ⟨?_, ?_, ?_, ?_, ?_, ?_⟩
  · intro n h; simp [deviceSequence, h]
  · intro n h1 h2; simp [deviceSequence, h1, h2]
  · intro n h1 h2; simp [deviceSequence, h1, h2]
  · intro n pd
    simp only [deviceSequence]
    split <;> split <;> simp
  · intro n pref attempt h
    simpa using runDeviceChain_all_fail attempt (deviceSequence n pref) [] h
  · intro n pref attempt pre d post hseq hpre hd
    have := runDeviceChain_first_success attempt d post hd pre [] hpre
    simpa [smeltItemChain, hseq] using this

theorem smelt_device_fallback_chain_witness :
    deviceSequence "beef" none = [Device.smoker, Device.furnace, Device.campfire] ∧
    smeltItemChain "beef" none
        (fun d => if d = Device.furnace then Except.ok true else Except.ok false)
      = ⟨true, some Device.furnace, [Device.smoker, Device.furnace]⟩ ∧
    smeltItemChain "beef" none (fun _ => Except.ok false)
      = ⟨false, none, [Device.smoker, Device.furnace, Device.campfire]⟩ := by
  have hfood : isLikelyFood "beef" = true := by decide
  have hseq := smelt_device_fallback_chain.1 "beef" hfood
  refine ⟨hseq, ?_, ?_⟩
  · exact smelt_device_fallback_chain.2.2.2.2.2 "beef" none _
      [Device.smoker] Device.furnace [Device.campfire]
      (by rw [hseq]; rfl)
      (by intro d' hd'; rcases List.mem_singleton.mp hd' with rfl; simp)
      (by simp)
  · have := smelt_device_fallback_chain.2.2.2.2.1 "beef" none
      (fun _ => Except.ok false) (by intro d _; simp)
    rw [hseq] at this
    exact this

/-! ### Furnace refuel policy lemmas -/

/-- Claim C8: during output polling, a stall with the fuel slot empty
triggers a refuel (insert fuel, bump the attempt counter, reset the
progress clock, continue polling) only while fewer than two refuels have
been consumed and a fuel item is available and insertable; otherwise the
device attempt terminates with `outOfFuel = true` and reason
`out_of_fuel`; a stall with fuel still present terminates without the
out-of-fuel marking (reason `stalled`); the refuel counter never exceeds
two; and a failed device attempt advances the fallback chain to the next
device. -/
theorem furnace_refuel_policy (time : Nat → Nat) (takeOut : Nat → Option Nat)
    (fp invf rok : Nat → Bool) (target deadline : Nat) :
    (∀ fuel k outputs lpa ra, ra ≤ 2 →
      ∀ res, cookPollLoop time takeOut fp invf rok target deadline
          fuel k outputs lpa ra = some res → res.refuels ≤ 2) ∧
    (∀ fuel k outputs lpa ra, outputs < target → time k < deadline →
      takeOut k = none → 15000 < time k - lpa → fp k = true →
      cookPollLoop time takeOut fp invf rok target deadline
          (fuel + 1) k outputs lpa ra
        = some (cookExit outputs target (time k) deadline false ra) ∧
      (cookExit outputs target (time k) deadline false ra).outOfFuel = false ∧
      (cookExit outputs target (time k) deadline false ra).reason = some "stalled") ∧
    (∀ fuel k outputs lpa ra, outputs < target → time k < deadline →
      takeOut k = none → 15000 < time k - lpa → fp k = false →
      (invf k = false ∨ 2 ≤ ra ∨ rok k = false) →
      cookPollLoop time takeOut fp invf rok target deadline
          (fuel + 1) k outputs lpa ra
        = some (cookExit outputs target (time k) deadline true ra) ∧
      (cookExit outputs target (time k) deadline true ra).outOfFuel = true ∧
      (cookExit outputs target (time k) deadline true ra).reason = some "out_of_fuel") ∧
    (∀ fuel k outputs lpa ra, outputs < target → time k < deadline →
      takeOut k = none → 15000 < time k - lpa → fp k = false →
      invf k = true → ra < 2 → rok k = true →
      cookPollLoop time takeOut fp invf rok target deadline
          (fuel + 1) k outputs lpa ra
        = cookPollLoop time takeOut fp invf rok target deadline
            fuel (k + 1) outputs (time k) (ra + 1)) ∧
    (∀ (attempt : Device → Except String Bool) (d : Device) (rest init : List Device),
      attempt d = Except.ok false →
      runDeviceChain attempt (d :: rest) init
        = runDeviceChain attempt rest (init ++ [d])) := by
  refine ⟨?_, ?_, ?_, ?_, ?_⟩
  · intro fuel
    induction fuel with
    | zero =>
      intro k outputs lpa ra _ res hres
      simp [cookPollLoop] at hres
    | succ f ih =>
      intro k outputs lpa ra hra res hres
      rw [cookPollLoop] at hres
      split at hres
      · cases htake : takeOut k with
        | some c =>
          simp only [htake, Option.getD_some, Option.isSome_some, if_true] at hres
          split at hres
          · split at hres
            · rw [Option.some_inj] at hres
              subst hres
              exact hra
            · split at hres
              · rename_i hgate
                simp only [Bool.and_eq_true, decide_eq_true_eq] at hgate
                exact ih _ _ _ _ (by omega) res hres
              · rw [Option.some_inj] at hres
                subst hres
                exact hra
          · exact ih _ _ _ _ hra res hres
        | none =>
          simp only [htake, Option.getD_none, Option.isSome_none, Bool.false_eq_true,
            if_false, Nat.add_zero] at hres
          split at hres
          · split at hres
            · rw [Option.some_inj] at hres
              subst hres
              exact hra
            · split at hres
              · rename_i hgate
                simp only [Bool.and_eq_true, decide_eq_true_eq] at hgate
                exact ih _ _ _ _ (by omega) res hres
              · rw [Option.some_inj] at hres
                subst hres
                exact hra
          · exact ih _ _ _ _ hra res hres
      · rw [Option.some_inj] at hres
        subst hres
        exact hra
  · intro fuel k outputs lpa ra hout hdead hnoout hstall hfp
    have hcond : outputs < target ∧ time k < deadline := ⟨hout, hdead⟩
    have hres : cookPollLoop time takeOut fp invf rok target deadline
        (fuel + 1) k outputs lpa ra
        = some (cookExit outputs target (time k) deadline false ra) := by
      rw [cookPollLoop]
      simp [hcond, hnoout, hstall, hfp]
    have htd : ¬ (deadline ≤ time k) := by omega
    refine ⟨hres, ?_, ?_⟩
    · rfl
    · simp [cookExit, hout, htd]
  · intro fuel k outputs lpa ra hout hdead hnoout hstall hfp hblock
    have hcond : outputs < target ∧ time k < deadline := ⟨hout, hdead⟩
    have hgate : (invf k && decide (ra < 2) && rok k) = false := by
      rcases hblock with h | h | h
      · simp [h]
      · have : ¬ (ra < 2) := by omega
        simp [this]
      · simp [h]
    have hres : cookPollLoop time takeOut fp invf rok target deadline
        (fuel + 1) k outputs lpa ra
        = some (cookExit outputs target (time k) deadline true ra) := by
      rw [cookPollLoop]
      simp [hcond, hnoout, hstall, hfp, hgate]
    have htd : ¬ (deadline ≤ time k) := by omega
    refine ⟨hres, rfl, ?_⟩
    · simp [cookExit]
  · intro fuel k outputs lpa ra hout hdead hnoout hstall hfp hinvf hra hrok
    have hcond : outputs < target ∧ time k < deadline := ⟨hout, hdead⟩
    have hgate : (invf k && decide (ra < 2) && rok k) = true := by
      simp [hinvf, hra, hrok]
    rw [cookPollLoop]
    simp [hcond, hnoout, hstall, hfp, hgate]
  · intro attempt d rest init hatt
    simp [runDeviceChain, hatt]

theorem furnace_refuel_policy_witness :
    cookPollLoop (fun k => k * 16000) (fun _ => none) (fun _ => false)
        (fun _ => false) (fun _ => false) 1 100000 1 1 0 0 0
      = some (cookExit 0 1 16000 100000 true 0) ∧
    (cookExit 0 1 16000 100000 true 0).reason = some "out_of_fuel" ∧
    (cookExit 0 1 16000 100000 true 0).refuels ≤ 2 := by
  have h := furnace_refuel_policy (fun k => k * 16000) (fun _ => none)
    (fun _ => false) (fun _ => false) (fun _ => false) 1 100000
  have h3 := h.2.2.1 0 1 0 0 0 (by decide) (by decide) rfl (by decide) rfl
    (Or.inl rfl)
  refine ⟨h3.1, h3.2.2, ?_⟩
  exact h.1 1 1 0 0 0 (by decide) _ h3.1

/-! ### Progress watchdog lemmas -/

theorem navImproves_frozen (d0 : Rat) : navImproves (some d0) d0 = false := by
  simp only [navImproves, decide_eq_false_iff_not]
  intro h
  linarith

theorem navLoop_stall_aux (dist : Nat → Rat) (time : Nat → Nat)
    (t0 timeoutMs idleMs : Nat) (ad d0 : Rat) (m : Nat)
    (hfar : ∀ j ≤ m, ad < dist j)
    (hfrozen : ∀ j ≤ m, dist j = d0)
    (hstall : idleMs < time m - t0)
    (hbefore : ∀ j ≤ m, time j - t0 < timeoutMs)
    (hmin : ∀ j, j < m → time j - t0 ≤ idleMs) :
    ∀ fuel j, 1 ≤ j → j ≤ m → m - j < fuel →
      navLoop dist time t0 timeoutMs idleMs ad fuel j (some d0) t0
        = some NavOutcome.stalled := by
  intro fuel
  induction fuel with
  | zero => intro j _ _ h3; omega
  | succ f ih =>
    intro j h1 h2 h3
    rw [navLoop]
    have hnt : ¬ (timeoutMs ≤ time j - t0) := by
      have := hbefore j h2
      omega
    have hna : ¬ (dist j ≤ ad) := not_le.mpr (hfar j h2)
    have himp : navImproves (some d0) (dist j) = false := by
      rw [hfrozen j h2]
      exact navImproves_frozen d0
    have hupd : navUpdate (some d0) (dist j) (time j) t0 = (some d0, t0) := by
      simp [navUpdate, himp]
    rcases eq_or_lt_of_le h2 with rfl | hjm
    · have hst : idleMs < time j - t0 := hstall
      simp [hnt, hna, hupd, hst]
    · have hst : ¬ (idleMs < time j - t0) := by
        have := hmin j hjm
        omega
      simp only [hupd]
      rw [if_neg hnt, if_neg hna, if_neg hst]
      exact ih (j + 1) (by omega) (by omega) (by omega)

theorem navLoop_timeout_aux (dist : Nat → Rat) (time : Nat → Nat)
    (t0 timeoutMs idleMs : Nat) (ad : Rat) (m : Nat)
    (himpr : ∀ j, j < m → dist (j + 1) + 1/4 < dist j)
    (hfar : ∀ j ≤ m, ad < dist j)
    (htime : timeoutMs ≤ time m - t0)
    (hbefore : ∀ j, j < m → time j - t0 < timeoutMs) :
    ∀ fuel j, 1 ≤ j → j ≤ m → m - j < fuel →
      navLoop dist time t0 timeoutMs idleMs ad fuel j
          (some (dist (j - 1))) (time (j - 1))
        = some NavOutcome.timedOut := by
  intro fuel
  induction fuel with
  | zero => intro j _ _ h3; omega
  | succ f ih =>
    intro j h1 h2 h3
    rw [navLoop]
    rcases eq_or_lt_of_le h2 with rfl | hjm
    · rw [if_pos htime]
    · have hnt : ¬ (timeoutMs ≤ time j - t0) := by
        have := hbefore j hjm
        omega
      have hna : ¬ (dist j ≤ ad) := not_le.mpr (hfar j h2)
      have himp : navImproves (some (dist (j - 1))) (dist j) = true := by
        have hj : j - 1 + 1 = j := by omega
        have hlt := himpr (j - 1) (by omega)
        rw [hj] at hlt
        simp only [navImproves, decide_eq_true_eq]
        exact hlt
      have hupd : navUpdate (some (dist (j - 1))) (dist j) (time j) (time (j - 1))
          = (some (dist j), time j) := by
        simp [navUpdate, himp]
      have hst : ¬ (idleMs < time j - time j) := by
        simp
      simp only [hupd]
      rw [if_neg hnt, if_neg hna, if_neg hst]
      have hj1 : j + 1 - 1 = j := by omega
      have happ := ih (j + 1) (by omega) (by omega) (by omega)
      rw [hj1] at happ
      exact happ

theorem navLoop_arrive_aux (dist : Nat → Rat) (time : Nat → Nat)
    (t0 timeoutMs idleMs : Nat) (ad : Rat) (m : Nat)
    (harr : dist m ≤ ad)
    (hfar : ∀ j, j < m → ad < dist j)
    (hidle : ∀ j ≤ m, time j - t0 ≤ idleMs)
    (hdead : ∀ j ≤ m, time j - t0 < timeoutMs)
    (ht0 : ∀ j ≤ m, t0 ≤ time j) :
    ∀ fuel j best lpa, j ≤ m → m - j < fuel → t0 ≤ lpa →
      navLoop dist time t0 timeoutMs idleMs ad fuel j best lpa
        = some NavOutcome.arrived := by
  intro fuel
  induction fuel with
  | zero => intro j best lpa _ h2 _; omega
  | succ f ih =>
    intro j best lpa h1 h2 hlpa
    rw [navLoop]
    have hnt : ¬ (timeoutMs ≤ time j - t0) := by
      have := hdead j h1
      omega
    rcases eq_or_lt_of_le h1 with rfl | hjm
    · rw [if_neg hnt, if_pos harr]
    · have hna : ¬ (dist j ≤ ad) := not_le.mpr (hfar j hjm)
      have hlpa2 : t0 ≤ (navUpdate best (dist j) (time j) lpa).2 := by
        unfold navUpdate
        split
        · exact ht0 j h1
        · exact hlpa
      have hst : ¬ (idleMs < time j - (navUpdate best (dist j) (time j) lpa).2) := by
        have h5 : time j - (navUpdate best (dist j) (time j) lpa).2 ≤ time j - t0 :=
          Nat.sub_le_sub_left hlpa2 _
        have := hidle j h1
        omega
      rw [if_neg hnt, if_neg hna, if_neg hst]
      exact ih (j + 1) _ _ (by omega) (by omega) hlpa2

theorem goToLoop_stall_aux (dist : Nat → Rat) (time : Nat → Nat)
    (t0 maxMs : Nat) (ad d0 : Rat) (m : Nat)
    (hfar : ∀ j ≤ m, ad < dist j)
    (hfrozen : ∀ j ≤ m, dist j = d0)
    (hstall : 15000 < time m - t0)
    (hbefore : ∀ j ≤ m, time j - t0 < maxMs)
    (hmin : ∀ j, j < m → time j - t0 ≤ 15000) :
    ∀ fuel j, 1 ≤ j → j ≤ m → m - j < fuel →
      goToLoop dist time t0 maxMs ad fuel j (some d0) t0 = some false := by
  intro fuel
  induction fuel with
  | zero => intro j _ _ h3; omega
  | succ f ih =>
    intro j h1 h2 h3
    rw [goToLoop]
    have hnt : ¬ (maxMs ≤ time j - t0) := by
      have := hbefore j h2
      omega
    have hna : ¬ (dist j ≤ ad) := not_le.mpr (hfar j h2)
    have himp : navImproves (some d0) (dist j) = false := by
      rw [hfrozen j h2]
      exact navImproves_frozen d0
    have hupd : navUpdate (some d0) (dist j) (time j) t0 = (some d0, t0) := by
      simp [navUpdate, himp]
    rcases eq_or_lt_of_le h2 with rfl | hjm
    · have hst : 15000 < time j - t0 := hstall
      simp [hnt, hna, hupd, hst]
    · have hst : ¬ (15000 < time j - t0) := by
        have := hmin j hjm
        omega
      simp only [hupd]
      rw [if_neg hnt, if_neg hna, if_neg hst]
      exact ih (j + 1) (by omega) (by omega) (by omega)

/-- The full `goToKnownLocation` watchdog run on a metric frozen from the
start: starting at `best = Infinity`, `lastProgressAt = time 0`, the loop
breaks with `arrived = false` at the first poll past the idle window. -/
theorem goToLoop_frozen_run (dist : Nat → Rat) (time : Nat → Nat)
    (maxMs : Nat) (ad d0 : Rat) (m : Nat)
    (hfar : ∀ j ≤ m, ad < dist j)
    (hfrozen : ∀ j ≤ m, dist j = d0)
    (hstall : 15000 < time m - time 0)
    (hbefore : ∀ j ≤ m, time j - time 0 < maxMs)
    (hmin : ∀ j, j < m → time j - time 0 ≤ 15000) :
    ∀ fuel, m < fuel →
      goToLoop dist time (time 0) maxMs ad fuel 0 none (time 0) = some false := by
  intro fuel hfuel
  have hm : m ≠ 0 := by
    intro h
    subst h
    simp [Nat.sub_self] at hstall
  obtain ⟨f, rfl⟩ : ∃ f, fuel = f + 1 := ⟨fuel - 1, by omega⟩
  rw [goToLoop]
  have hnt : ¬ (maxMs ≤ time 0 - time 0) := by
    have := hbefore 0 (Nat.zero_le m)
    omega
  have hna : ¬ (dist 0 ≤ ad) := not_le.mpr (hfar 0 (Nat.zero_le m))
  have hupd : navUpdate none (dist 0) (time 0) (time 0) = (some (dist 0), time 0) := by
    simp [navUpdate, navImproves]
  have hst : ¬ (15000 < time 0 - time 0) := by omega
  simp only [hupd]
  rw [if_neg hnt, if_neg hna, if_neg hst]
  rw [hfrozen 0 (Nat.zero_le m)]
  exact goToLoop_stall_aux dist time (time 0) maxMs ad d0 m hfar hfrozen hstall
    hbefore hmin f 1 (le_refl 1) (by omega) (by omega)

/-- Claim C5 counterexample: `goToKnownLocation` on a frozen metric stalls
at 20 s, well before its 60 s deadline, yet reports
`{ ok: false, arrived: false, timedOut: true }` — there is no distinct
stalled outcome and `timedOut` is raised although the overall deadline had
not elapsed, contrary to the claim that a pre-deadline stall is reported
as `Stalled` and `TimedOut` only past the deadline. -/
theorem goto_stall_reported_as_timedOut :
    goToKnownLocationRun (fun _ => 10) (fun j => j * 5000) 1 60000 10
      = some ⟨false, false, true⟩ ∧
    (4 * 5000 : Nat) < 60000 := by
  constructor
  · have hrun : goToLoop (fun _ => (10 : Rat)) (fun j => j * 5000)
        ((fun j => j * 5000) 0) 60000 (arriveThreshold 1) 10 0 none
        ((fun j => j * 5000) 0) = some false := by
      apply goToLoop_frozen_run (fun _ => (10 : Rat)) (fun j => j * 5000)
        60000 (arriveThreshold 1) 10 4
      · intro j _
        show arriveThreshold 1 < (10 : Rat)
        simp only [arriveThreshold, max_self]
        norm_num
      · intro j _
        rfl
      · show 15000 < 4 * 5000 - 0 * 5000
        omega
      · intro j _
        show j * 5000 - 0 * 5000 < 60000
        omega
      · intro j hj
        show j * 5000 - 0 * 5000 ≤ 15000
        omega
      · omega
    unfold goToKnownLocationRun
    rw [hrun]
    rfl
  · omega

/-- Claim C5 (amended): the `pathfindToPredicate` watchdog resets its
last-improvement time exactly when the metric improves by strictly more
than 0.25 relative to the best value seen (an improvement of exactly 0.25
does not reset); a metric frozen past the 15 s idle window while the
deadline has not elapsed yields `navigation_stalled`; a metric that keeps
improving without reaching the target yields `navigation_timeout` once
the deadline elapses; a metric reaching the target before the idle window
elapses yields arrival.  `goToKnownLocation` applies the same improvement
rule but reports every non-arrival, a pre-deadline stall included, as
`ok = false, timedOut = true`, with no distinct stalled outcome. -/
theorem progress_watchdog_outcomes :
    (∀ (b d : Rat) (now lpa : Nat),
      d + 1/4 < b → navUpdate (some b) d now lpa = (some d, now)) ∧
    (∀ (b : Rat) (now lpa : Nat),
      navUpdate (some b) (b - 1/4) now lpa = (some b, lpa)) ∧
    (∀ (b d : Rat) (now lpa : Nat),
      ¬ (d + 1/4 < b) → navUpdate (some b) d now lpa = (some b, lpa)) ∧
    (∀ (dist : Nat → Rat) (time : Nat → Nat) (range : Rat) (timeoutMs m fuel : Nat),
      (∀ j ≤ m, arriveThreshold range < dist j) →
      (∀ j ≤ m, dist j = dist 0) →
      15000 < time m - time 0 →
      (∀ j ≤ m, time j - time 0 < timeoutMs) →
      (∀ j, j < m → time j - time 0 ≤ 15000) →
      m < fuel →
      pathfindWatchdog dist time range timeoutMs fuel = some NavOutcome.stalled) ∧
    (∀ (dist : Nat → Rat) (time : Nat → Nat) (range : Rat) (timeoutMs m fuel : Nat),
      (∀ j, j < m → dist (j + 1) + 1/4 < dist j) →
      (∀ j ≤ m, arriveThreshold range < dist j) →
      timeoutMs ≤ time m - time 0 →
      (∀ j, j < m → time j - time 0 < timeoutMs) →
      m < fuel →
      pathfindWatchdog dist time range timeoutMs fuel = some NavOutcome.timedOut) ∧
    (∀ (dist : Nat → Rat) (time : Nat → Nat) (range : Rat) (timeoutMs m fuel : Nat),
      dist m ≤ arriveThreshold range →
      (∀ j, j < m → arriveThreshold range < dist j) →
      (∀ j ≤ m, time j - time 0 ≤ 15000) →
      (∀ j ≤ m, time j - time 0 < timeoutMs) →
      (∀ j, time 0 ≤ time j) →
      m < fuel →
      pathfindWatchdog dist time range timeoutMs fuel = some NavOutcome.arrived) ∧
    (∀ (dist : Nat → Rat) (time : Nat → Nat) (range : Rat) (maxMs fuel : Nat)
        (res : GoToResult),
      goToKnownLocationRun dist time range maxMs fuel = some res →
      res.timedOut = !res.arrived ∧ res.ok = res.arrived) := by
  refine ⟨?_, ?_, ?_, ?_, ?_, ?_, ?_⟩
  · intro b d now lpa h
    have himp : navImproves (some b) d = true := by
      simp only [navImproves, decide_eq_true_eq]
      exact h
    simp [navUpdate, himp]
  · intro b now lpa
    have himp : navImproves (some b) (b - 1/4) = false := by
      simp only [navImproves, decide_eq_false_iff_not]
      intro hcon
      have hb : b - 1/4 + 1/4 = b := by ring
      rw [hb] at hcon
      exact lt_irrefl b hcon
    unfold navUpdate
    rw [himp]
    simp
  · intro b d now lpa h
    have himp : navImproves (some b) d = false := by
      simp only [navImproves, decide_eq_false_iff_not]
      exact h
    simp [navUpdate, himp]
  · intro dist time range timeoutMs m fuel hfar hfrozen hstall hbefore hmin hfuel
    have hm : m ≠ 0 := by
      intro h
      subst h
      simp [Nat.sub_self] at hstall
    obtain ⟨f, rfl⟩ : ∃ f, fuel = f + 1 := ⟨fuel - 1, by omega⟩
    unfold pathfindWatchdog
    rw [navLoop]
    have hnt : ¬ (timeoutMs ≤ time 0 - time 0) := by
      have := hbefore 0 (Nat.zero_le m)
      omega
    have hna : ¬ (dist 0 ≤ arriveThreshold range) := not_le.mpr (hfar 0 (Nat.zero_le m))
    have hupd : navUpdate none (dist 0) (time 0) (time 0) = (some (dist 0), time 0) := by
      simp [navUpdate, navImproves]
    have hst : ¬ (15000 < time 0 - time 0) := by omega
    simp only [hupd]
    rw [if_neg hnt, if_neg hna, if_neg hst]
    exact navLoop_stall_aux dist time (time 0) timeoutMs 15000 (arriveThreshold range)
      (dist 0) m hfar hfrozen hstall hbefore hmin f 1 (le_refl 1) (by omega) (by omega)
  · intro dist time range timeoutMs m fuel himpr hfar htime hbefore hfuel
    obtain ⟨f, rfl⟩ : ∃ f, fuel = f + 1 := ⟨fuel - 1, by omega⟩
    unfold pathfindWatchdog
    rw [navLoop]
    by_cases hm : m = 0
    · subst hm
      rw [if_pos htime]
    · have hnt : ¬ (timeoutMs ≤ time 0 - time 0) := by
        have := hbefore 0 (by omega)
        omega
      have hna : ¬ (dist 0 ≤ arriveThreshold range) := not_le.mpr (hfar 0 (Nat.zero_le m))
      have hupd : navUpdate none (dist 0) (time 0) (time 0) = (some (dist 0), time 0) := by
        simp [navUpdate, navImproves]
      have hst : ¬ (15000 < time 0 - time 0) := by omega
      simp only [hupd]
      rw [if_neg hnt, if_neg hna, if_neg hst]
      exact navLoop_timeout_aux dist time (time 0) timeoutMs 15000 (arriveThreshold range)
        m himpr hfar htime hbefore f 1 (le_refl 1) (by omega) (by omega)
  · intro dist time range timeoutMs m fuel harr hfar hidle hdead hmono hfuel
    exact navLoop_arrive_aux dist time (time 0) timeoutMs 15000 (arriveThreshold range) m
      harr hfar hidle hdead (fun j _ => hmono j) fuel 0 none (time 0)
      (Nat.zero_le m) (by omega) (le_refl _)
  · intro dist time range maxMs fuel res hres
    unfold goToKnownLocationRun at hres
    rcases Option.map_eq_some'.mp hres with ⟨a, _, rfl⟩
    exact ⟨rfl, rfl⟩

theorem progress_watchdog_outcomes_witness :
    pathfindWatchdog (fun _ => 10) (fun j => j * 5000) 1 45000 10
      = some NavOutcome.stalled ∧
    pathfindWatchdog (fun j => 20 - (j : Rat)) (fun j => j * 5000) 1 45000 10
      = some NavOutcome.timedOut ∧
    pathfindWatchdog (fun j => if j < 2 then 10 else 1) (fun j => j * 5000) 1 45000 10
      = some NavOutcome.arrived ∧
    navUpdate (some 10) 9 7 3 = (some 9, 7) ∧
    navUpdate (some 10) (10 - 1/4) 7 3 = (some 10, 3) ∧
    (GoToResult.mk false false true).timedOut
      = !(GoToResult.mk false false true).arrived := by
  refine ⟨?_, ?_, ?_, ?_, ?_, ?_⟩
  · apply progress_watchdog_outcomes.2.2.2.1 (fun _ => 10) (fun j => j * 5000)
      1 45000 4 10
    · intro j _
      show arriveThreshold 1 < (10 : Rat)
      simp only [arriveThreshold, max_self]
      norm_num
    · intro j _
      rfl
    · show 15000 < 4 * 5000 - 0 * 5000
      omega
    · intro j _
      show j * 5000 - 0 * 5000 < 45000
      omega
    · intro j hj
      show j * 5000 - 0 * 5000 ≤ 15000
      omega
    · omega
  · apply progress_watchdog_outcomes.2.2.2.2.1 (fun j => 20 - (j : Rat))
      (fun j => j * 5000) 1 45000 9 10
    · intro j _
      show (20 : Rat) - ((j + 1 : Nat) : Rat) + 1/4 < 20 - (j : Rat)
      push_cast
      linarith
    · intro j hj
      show arriveThreshold 1 < (20 : Rat) - (j : Rat)
      have hj9 : ((j : Nat) : Rat) ≤ 9 := by exact_mod_cast hj
      simp only [arriveThreshold, max_self]
      linarith
    · show 45000 ≤ 9 * 5000 - 0 * 5000
      omega
    · intro j hj
      show j * 5000 - 0 * 5000 < 45000
      omega
    · omega
  · apply progress_watchdog_outcomes.2.2.2.2.2.1
      (fun j => if j < 2 then 10 else 1) (fun j => j * 5000) 1 45000 2 10
    · show (if 2 < 2 then (10 : Rat) else 1) ≤ arriveThreshold 1
      simp only [arriveThreshold, max_self]
      norm_num
    · intro j hj
      show arriveThreshold 1 < (if j < 2 then (10 : Rat) else 1)
      rw [if_pos hj]
      simp only [arriveThreshold, max_self]
      norm_num
    · intro j hj
      show j * 5000 - 0 * 5000 ≤ 15000
      omega
    · intro j hj
      show j * 5000 - 0 * 5000 < 45000
      omega
    · intro j
      show 0 * 5000 ≤ j * 5000
      omega
    · omega
  · exact progress_watchdog_outcomes.1 10 9 7 3 (by norm_num)
  · exact progress_watchdog_outcomes.2.1 10 7 3
  · exact (progress_watchdog_outcomes.2.2.2.2.2.2 (fun _ => 10) (fun _ => 0)
      1 0 1 ⟨false, false, true⟩ rfl).1

end MinecraftMCP
